import Mathlib

/-!
# YouTube video analyzer: a verification development

Shallow embedding of `src/youtube-analyzer.js` (class `YouTubeAnalyzer`).

JavaScript strings are modelled as lists of characters (`JSString`).  The two regular
expressions of `extractVideoId`, the global hashtag match and the regular-expression split of
`extractKeywordsFromDescription` are embedded as backtracking matchers that follow the
ECMAScript matching order: leftmost start position first, alternatives left to right,
greedy quantifiers longest first.
-/

namespace YouTubeAnalyzer

/-- A JavaScript string value. -/
abbrev JSString := List Char

/-! ## String primitives -/

/-- Matching a literal at the head of the input: the rest of the input after the literal,
or `none` when the input does not start with it. -/
def dropLiteral : JSString → JSString → Option JSString
  | [], s => some s
  | _ :: _, [] => none
  | p :: ps, c :: cs => if p = c then dropLiteral ps cs else none

/-- The method `String.prototype.includes`: the needle occurs somewhere in the string. -/
def includes (s needle : JSString) : Bool :=
  match s with
  | [] => (dropLiteral needle []).isSome
  | c :: cs => (dropLiteral needle (c :: cs)).isSome || includes cs needle

/-- The property `length` of a string: the number of UTF-16 code units. -/
def jsLength (s : JSString) : Nat :=
  (s.map fun c => if c.toNat < 65536 then 1 else 2).sum

/-- The method `Array.prototype.join`. -/
def join (sep : JSString) : List JSString → JSString
  | [] => []
  | [x] => x
  | x :: y :: rest => x ++ sep ++ join sep (y :: rest)

/-- A number in a template literal: its decimal digits. -/
def numberToString (n : Nat) : JSString := Nat.toDigits 10 n

/-! ## URL parser (`extractVideoId`) -/

/-- The character class `[^&\n?#]`. -/
def isIdChar (c : Char) : Bool :=
  !(c = '&' || c = '\n' || c = '?' || c = '#')

/-- The atom `.` of a regular expression without the `s` flag: any character that is not a
line terminator. -/
def isDotChar (c : Char) : Bool :=
  !(c = '\n' || c = '\r' || c = '\u2028' || c = '\u2029')

/-- The capturing group `([^&\n?#]+)` at the end of a pattern: the longest non-empty run. -/
def captureId (s : JSString) : Option JSString :=
  match s.takeWhile isIdChar with
  | [] => none
  | c :: cs => some (c :: cs)

/-- One alternative of the first pattern followed by the capturing group. -/
def literalThenId (lit s : JSString) : Option JSString :=
  match dropLiteral lit s with
  | some rest => captureId rest
  | none => none

/-- The first pattern,
`/(?:youtube\.com\/watch\?v=|youtu\.be\/|youtube\.com\/embed\/)([^&\n?#]+)/`,
tried at the head of the input. -/
def pattern1At (s : JSString) : Option JSString :=
  (literalThenId "youtube.com/watch?v=".toList s).orElse fun _ =>
  (literalThenId "youtu.be/".toList s).orElse fun _ =>
  literalThenId "youtube.com/embed/".toList s

/-- The tail `.*v=([^&\n?#]+)` of the second pattern: the greedy star first tries to take
one more character and gives it back when the rest does not match. -/
def dotStarThenV : JSString → Option JSString
  | [] => literalThenId "v=".toList []
  | c :: cs =>
    if isDotChar c then
      (dotStarThenV cs).orElse fun _ => literalThenId "v=".toList (c :: cs)
    else literalThenId "v=".toList (c :: cs)

/-- The second pattern, `/youtube\.com\/watch\?.*v=([^&\n?#]+)/`, tried at the head of the
input. -/
def pattern2At (s : JSString) : Option JSString :=
  match dropLiteral "youtube.com/watch?".toList s with
  | some rest => dotStarThenV rest
  | none => none

/-- The method `String.prototype.match` for a pattern without the `g` flag, reduced to its
first capturing group: start positions are tried from left to right. -/
def searchFirst (patternAt : JSString → Option JSString) : JSString → Option JSString
  | [] => patternAt []
  | c :: cs => (patternAt (c :: cs)).orElse fun _ => searchFirst patternAt cs

/-- The message of the error thrown for a URL no pattern matches. -/
def invalidUrlMessage : JSString := "Invalid YouTube URL".toList

/-- The method `extractVideoId`: the first capturing group of the first pattern that matches,
or the error `Invalid YouTube URL`. -/
def extractVideoId (url : JSString) : Except JSString JSString :=
  match searchFirst pattern1At url with
  | some id => .ok id
  | none =>
    match searchFirst pattern2At url with
    | some id => .ok id
    | none => .error invalidUrlMessage

/-! ## Keyword extractor (`extractKeywordsFromDescription`) -/

/-- The character class `\w`: an ASCII letter, an ASCII digit or the underscore. -/
def isWordChar (c : Char) : Bool :=
  c.isAlphanum || c = '_'

/-- The character class `\s`: the white space and line terminator characters of ECMAScript. -/
def isWhiteSpace (c : Char) : Bool :=
  (9 ≤ c.toNat && c.toNat ≤ 13) || c = ' ' || c = '\u00a0' || c = '\u1680' ||
  (8192 ≤ c.toNat && c.toNat ≤ 8202) || c = '\u2028' || c = '\u2029' || c = '\u202f' ||
  c = '\u205f' || c = '\u3000' || c = '\ufeff'

/-- The character class `[\s,]`. -/
def isSeparator (c : Char) : Bool :=
  isWhiteSpace c || c = ','

/-- The global match `description.match(/#[\w]+/g)` scanned from left to right; `skip` is the
number of characters left before `lastIndex`, the end of the previous match, where the search
resumes.  Each match is a `#` with the longest non-empty run of word characters after it. -/
def matchHashtags : Nat → JSString → List JSString
  | _, [] => []
  | skip + 1, _ :: cs => matchHashtags skip cs
  | 0, c :: cs =>
    if c = '#' then
      match cs.takeWhile isWordChar with
      | [] => matchHashtags 0 cs
      | b :: bs => ('#' :: b :: bs) :: matchHashtags (b :: bs).length cs
    else matchHashtags 0 cs

/-- The method `String.prototype.split` with a one-character separator. -/
def splitOnChar (sep : Char) : JSString → List JSString
  | [] => [[]]
  | c :: cs =>
    if c = sep then [] :: splitOnChar sep cs
    else
      match splitOnChar sep cs with
      | [] => [[c]]
      | l :: ls => (c :: l) :: ls

/-- The split `line.split(/[\s,]+/)`: the pieces between the longest runs of separators;
`inRun` says that the previous character was a separator of the current run. -/
def splitOnSeparators : Bool → JSString → List JSString
  | _, [] => [[]]
  | inRun, c :: cs =>
    if isSeparator c then
      if inRun then splitOnSeparators true cs else [] :: splitOnSeparators true cs
    else
      match splitOnSeparators false cs with
      | [] => [[c]]
      | l :: ls => (c :: l) :: ls

/-- The test of a line for the marker words. -/
def isMarkerLine (line : JSString) : Bool :=
  decide (jsLength line < 100) &&
    (includes line "Code".toList || includes line "Tips".toList ||
      includes line "Tricks".toList)

/-- The filter applied to the words of a marker line. -/
def isKeywordToken (word : JSString) : Bool :=
  decide (jsLength word > 2) && !includes word "http".toList && !includes word "@".toList &&
    !includes word ".".toList

/-- The words a line contributes: the first three tokens of a marker line, nothing for any
other line. -/
def lineKeywords (line : JSString) : List JSString :=
  if isMarkerLine line then
    ((splitOnSeparators false line).filter isKeywordToken).take 3
  else []

/-- The array `keywords` before it is deduplicated: the hashtags without their `#`, then the
tokens of the marker lines. -/
def keywordCandidates (description : JSString) : List JSString :=
  (matchHashtags 0 description).map (fun tag => tag.drop 1) ++
    ((splitOnChar '\n' description).map lineKeywords).flatten

/-- The expression `[...new Set(keywords)]`: every value is added to the set unless it is
already there, and the set is listed in insertion order. -/
def setInsertionOrder (keywords : List JSString) : List JSString :=
  keywords.foldl (fun set k => if k ∈ set then set else set ++ [k]) []

/-- The method `extractKeywordsFromDescription`. -/
def extractKeywordsFromDescription (description : JSString) : List JSString :=
  (setInsertionOrder (keywordCandidates description)).take 10

/-! ## Output namer (`getNextFileName`) and the file system -/

/-- The files of the disk: paths with their contents. -/
abbrev FileSystem := List (JSString × JSString)

/-- The function `fs.existsSync`. -/
def existsSync (disk : FileSystem) (path : JSString) : Bool :=
  disk.any fun file => file.1 == path

/-- The function `fs.writeFileSync`.  The host decides whether the write is rejected (`ENOENT`
when the directory is missing, `EACCES`, `ENOSPC`): `writeError` gives the message of the
error that is thrown then, and the disk stays as it was.  Otherwise the file is created, or
replaced when it exists. -/
def writeFileSync (writeError : FileSystem → JSString → JSString → Option JSString)
    (disk : FileSystem) (path data : JSString) : Except JSString FileSystem :=
  match writeError disk path data with
  | some message => .error message
  | none => .ok ((path, data) :: disk.filter fun file => !(file.1 == path))

/-- The function `path.join` of a normalised directory and a file name. -/
def pathJoin (dir name : JSString) : JSString :=
  dir ++ '/' :: name

/-- The template literal for the name of the report with number `counter`. -/
def competitorName (counter : Nat) : JSString :=
  "competitor-".toList ++ numberToString counter ++ ".md".toList

/-- The `while` loop of `getNextFileName`, with a bound `fuel` on the number of tests of the
condition: `none` when the bound is reached before the loop ends. -/
def getNextFileNameLoop (disk : FileSystem) (outputDir : JSString) : Nat → Nat → Option Nat
  | 0, _ => none
  | fuel + 1, counter =>
    if existsSync disk (pathJoin outputDir (competitorName counter)) then
      getNextFileNameLoop disk outputDir fuel (counter + 1)
    else some counter

/-- The method `getNextFileName`; `outputDir` is the directory `outputs` next to the
sources. -/
def getNextFileName (disk : FileSystem) (outputDir : JSString) (fuel : Nat) : Option JSString :=
  (getNextFileNameLoop disk outputDir fuel 1).map fun counter =>
    pathJoin outputDir (competitorName counter)

/-! ## Transcript client (`fetchTranscript`) -/

/-- One caption entry returned by the captions collaborator. -/
structure Segment where
  start : JSString
  dur : JSString
  text : JSString

/-- The outcome of one call of `getSubtitles`: a rejection with the message of its error, or
the value it resolves to, which the code tests for being falsy before it reads its length. -/
abbrev SubtitlesOutcome := Except JSString (Option (List Segment))

/-- The expression `subtitles.map((item) => item.text).join(" ")`. -/
def transcriptText (subtitles : List Segment) : JSString :=
  join " ".toList (subtitles.map fun item => item.text)

/-- The body of the outer `try` block: the request for English captions; an empty result
throws `No transcript content found`. -/
def fetchTranscriptFirstAttempt (english : SubtitlesOutcome) : Except JSString JSString :=
  match english with
  | .error message => .error message
  | .ok (some (s :: ss)) => .ok (transcriptText (s :: ss))
  | .ok _ => .error "No transcript content found".toList

/-- The method `fetchTranscript`; the collaborator `getSubtitles` is a function of the video
identifier and of the optional language. -/
def fetchTranscript (getSubtitles : JSString → Option JSString → SubtitlesOutcome)
    (videoId : JSString) : Except JSString JSString :=
  match fetchTranscriptFirstAttempt (getSubtitles videoId (some "en".toList)) with
  | .ok text => .ok text
  | .error message =>
    match getSubtitles videoId none with
    | .ok (some (s :: ss)) => .ok (transcriptText (s :: ss))
    | _ => .error ("Transcript not available: ".toList ++ message)

/-! ## Report builder (`generateMarkdown`) -/

/-- The `snippet` object of a video resource. -/
structure Snippet where
  title : JSString
  description : JSString
  tags : Option (List JSString)
  publishedAt : Option JSString
  channelTitle : Option JSString

/-- The `statistics` object of a video resource. -/
structure Statistics where
  viewCount : Option JSString
  likeCount : Option JSString
  commentCount : Option JSString

/-- A video resource, as `fetchVideoInfo` resolves it. -/
structure VideoInfo where
  snippet : Snippet
  statistics : Statistics

/-- The object `commentThread.snippet.topLevelComment.snippet`. -/
structure CommentSnippet where
  authorDisplayName : JSString
  textDisplay : JSString
  likeCount : Option Nat

/-- A comment thread resource. -/
structure CommentThread where
  topLevelComment : CommentSnippet

/-- The expression `value || "N/A"`: the default replaces a missing value and the empty
string. -/
def orNA : Option JSString → JSString
  | none => "N/A".toList
  | some [] => "N/A".toList
  | some (c :: cs) => c :: cs

/-- A possibly missing string in a template literal. -/
def interpolate : Option JSString → JSString
  | none => "undefined".toList
  | some s => s

/-- The expression `new Date(publishedAt).toLocaleDateString()`.  Parsing a date and printing
it for the locale of the host is the parameter `toLocaleDateString`; the date made from
`undefined` is the invalid date, which every locale prints as `Invalid Date`. -/
def publishedDate (toLocaleDateString : JSString → JSString) : Option JSString → JSString
  | none => "Invalid Date".toList
  | some date => toLocaleDateString date

/-- The text of one comment; `index` is its position in the list. -/
def formatComment (index : Nat) (thread : CommentThread) : JSString :=
  "**Comment ".toList ++ numberToString (index + 1) ++ ":** ".toList ++
    thread.topLevelComment.authorDisplayName ++ "\n".toList ++
    thread.topLevelComment.textDisplay ++ "\nLikes: ".toList ++
    numberToString (thread.topLevelComment.likeCount.getD 0) ++ "\n---".toList

/-- The callback of `map` applied to the comments from position `index` on. -/
def formatComments : Nat → List CommentThread → List JSString
  | _, [] => []
  | index, thread :: rest => formatComment index thread :: formatComments (index + 1) rest

/-- The variable `commentsSection`. -/
def commentsSection (comments : List CommentThread) : JSString :=
  match comments with
  | [] => "Comments not available or disabled for this video".toList
  | _ :: _ => join "\n\n".toList (formatComments 0 (comments.take 10))

/-- The text that stands for a missing transcript. -/
def transcriptFallback : JSString :=
  ("[Transcript not available via automated API]\n\nTo manually get the transcript:\n" ++
   "1. Go to the video on YouTube\n2. Click the \"...\" menu below the video\n" ++
   "3. Select \"Show transcript\" \n4. Copy and paste the transcript text here\n\n" ++
   "Alternatively, you can use browser extensions or other tools to extract transcripts.").toList

/-- The variable `transcriptSection`: the transcript, or the fallback when it is empty. -/
def transcriptSection (transcript : JSString) : JSString :=
  match transcript with
  | [] => transcriptFallback
  | c :: cs => c :: cs

/-- The variable `keywordsText`. -/
def keywordsText (snippet : Snippet) : JSString :=
  let keywords :=
    match snippet.tags with
    | some tags => tags
    | none => extractKeywordsFromDescription snippet.description
  match keywords with
  | [] => "No keywords found".toList
  | _ :: _ => join ", ".toList keywords

/-- The statistics lines of the returned template literal. -/
def statisticsLines (toLocaleDateString : JSString → JSString) (videoInfo : VideoInfo) :
    JSString :=
  "- Views: ".toList ++ orNA videoInfo.statistics.viewCount ++
  "\n- Likes: ".toList ++ orNA videoInfo.statistics.likeCount ++
  "\n- Comments: ".toList ++ orNA videoInfo.statistics.commentCount ++
  "\n- Published: ".toList ++ publishedDate toLocaleDateString videoInfo.snippet.publishedAt ++
  "\n- Channel: ".toList ++ interpolate videoInfo.snippet.channelTitle

/-- The method `generateMarkdown`.  The source computes `transcriptSection` from the
transcript and then returns a template literal that ends after the comments section. -/
def generateMarkdown (toLocaleDateString : JSString → JSString) (videoInfo : VideoInfo)
    (originalUrl : JSString) (comments : List CommentThread) (transcript : JSString) :
    JSString :=
  let _transcriptSection := transcriptSection transcript
  "## Video Link:\n\n".toList ++ originalUrl ++
  "\n\n## Video title:\n\n".toList ++ videoInfo.snippet.title ++
  "\n\n## Video Description:\n\n".toList ++ videoInfo.snippet.description ++
  "\n\n## Video Keywords:\n\n".toList ++ keywordsText videoInfo.snippet ++
  "\n\n## Video Statistics:\n\n".toList ++ statisticsLines toLocaleDateString videoInfo ++
  "\n\n## Top Comments:\n\n".toList ++ commentsSection comments ++ "\n".toList

/-! ## Orchestrator (`analyze`) -/

/-- What `analyze` reaches outside the process: the two HTTPS requests as functions to
results, the captions collaborator, the date formatting of the host, the output directory and
the error, if any, with which the host rejects a write of a file. -/
structure Collaborators where
  fetchVideoInfo : JSString → Except JSString VideoInfo
  fetchComments : JSString → Nat → Except JSString (List CommentThread)
  getSubtitles : JSString → Option JSString → SubtitlesOutcome
  toLocaleDateString : JSString → JSString
  outputDir : JSString
  writeError : FileSystem → JSString → JSString → Option JSString

/-- The object `analyze` returns. -/
structure AnalysisResult where
  fileName : JSString
  videoInfo : VideoInfo
  comments : List CommentThread
  transcript : JSString

/-- The `try` block around `fetchComments`: a failure leaves the empty list. -/
def commentsOrEmpty (w : Collaborators) (videoId : JSString) (maxComments : Nat) :
    List CommentThread :=
  match w.fetchComments videoId maxComments with
  | .ok comments => comments
  | .error _ => []

/-- The `try` block around `fetchTranscript`: a failure leaves the empty string. -/
def transcriptOrEmpty (w : Collaborators) (videoId : JSString) : JSString :=
  match fetchTranscript w.getSubtitles videoId with
  | .ok transcript => transcript
  | .error _ => []

/-- The method `analyze`, from a disk to the disk it leaves and the value it returns or the
error it throws again: every error of the outer `try` block, the one of `fs.writeFileSync`
included, reaches the final `catch`, which throws it again.  The result is `none` when the
loop of `getNextFileName` needs more than `fuel` tests. -/
def analyze (w : Collaborators) (disk : FileSystem) (fuel : Nat) (url : JSString)
    (maxComments : Nat) : Option (FileSystem × Except JSString AnalysisResult) :=
  match extractVideoId url with
  | .error error => some (disk, .error error)
  | .ok videoId =>
    match w.fetchVideoInfo videoId with
    | .error error => some (disk, .error error)
    | .ok videoInfo =>
      let comments := commentsOrEmpty w videoId maxComments
      let transcript := transcriptOrEmpty w videoId
      let markdown := generateMarkdown w.toLocaleDateString videoInfo url comments transcript
      match getNextFileName disk w.outputDir fuel with
      | none => none
      | some fileName =>
        match writeFileSync w.writeError disk fileName markdown with
        | .error error => some (disk, .error error)
        | .ok written => some (written, .ok { fileName, videoInfo, comments, transcript })

/-! ## Notions of the specification -/

/-- A list without its repeated values: each value stays at its first occurrence. -/
def dedupKeepFirst : List JSString → List JSString
  | [] => []
  | x :: xs => x :: (dedupKeepFirst xs).filter fun y => !(y == x)

/-- The hashtag bodies of a text, in order: for every `#` that is followed by a word
character, the longest run of word characters after it. -/
def hashtagBodies : JSString → List JSString
  | [] => []
  | c :: cs =>
    if c = '#' then
      match cs.takeWhile isWordChar with
      | [] => hashtagBodies cs
      | b :: bs => (b :: bs) :: hashtagBodies cs
    else hashtagBodies cs

/-- A host name of YouTube: `youtube.com`, one of its subdomains, or `youtu.be`. -/
def isYouTubeHost (host : JSString) : Bool :=
  host == "youtube.com".toList || host == "youtu.be".toList ||
    ".youtube.com".toList.isSuffixOf host

/-- The values of the parameters called `name` in a query string of `name=value` pairs
separated by `&`. -/
def queryValues (name query : JSString) : List JSString :=
  (splitOnChar '&' query).filterMap fun pair => dropLiteral (name ++ ['=']) pair

/-- Sample data: a video resource without tags, like count, date and channel. -/
def sampleVideo : VideoInfo :=
  { snippet :=
      { title := "Demo".toList, description := "A demo".toList, tags := none,
        publishedAt := none, channelTitle := none }
    statistics :=
      { viewCount := some "10".toList, likeCount := none, commentCount := some "3".toList } }

/-- An outcome of `getSubtitles` without any caption entry: a rejection, a falsy value or the
empty array. -/
def yieldsNoSegment : SubtitlesOutcome → Bool
  | .ok (some (_ :: _)) => false
  | _ => true

/-- The message of the error of the first attempt: the message of the rejection, or the
message of the error thrown for a result without entries. -/
def firstAttemptMessage : SubtitlesOutcome → JSString
  | .error message => message
  | _ => "No transcript content found".toList

/-- Sample data: two caption entries. -/
def sampleSegments : List Segment :=
  [⟨"0".toList, "1".toList, "hello".toList⟩, ⟨"1".toList, "1".toList, "world".toList⟩]

/-- Sample data: a captions collaborator that rejects the request for English captions and
resolves the request without a language to two entries. -/
def sampleSubtitles (_videoId : JSString) : Option JSString → SubtitlesOutcome
  | some _ => .error "Could not find en captions".toList
  | none => .ok (some sampleSegments)

/-- Sample data: a captions collaborator that resolves every request to the empty array. -/
def emptySubtitles (_videoId : JSString) (_lang : Option JSString) : SubtitlesOutcome :=
  .ok (some [])

/-- Sample data: the video is found, the comments request fails, there are no captions and
the host accepts every write. -/
def sampleCollaborators : Collaborators :=
  { fetchVideoInfo := fun _ => .ok sampleVideo
    fetchComments := fun _ _ => .error "Failed to parse comments response".toList
    getSubtitles := emptySubtitles
    toLocaleDateString := fun date => date
    outputDir := "outputs".toList
    writeError := fun _ _ _ => none }

/-- Sample data: the message of the error of a write into a directory that does not
exist. -/
def missingDirectoryMessage (path : JSString) : JSString :=
  "ENOENT: no such file or directory, open '".toList ++ path ++ "'".toList

/-- Sample data: the video is found, the comments are fetched and the captions are found, and
the directory `outputs` does not exist, so the host rejects every write. -/
def missingDirectoryCollaborators : Collaborators :=
  { fetchVideoInfo := fun _ => .ok sampleVideo
    fetchComments := fun _ _ => .ok []
    getSubtitles := fun _ _ => .ok (some sampleSegments)
    toLocaleDateString := fun date => date
    outputDir := "outputs".toList
    writeError := fun _ path _ => some (missingDirectoryMessage path) }

/-- Sample data: a disk that holds the reports 1 and 3. -/
def sampleDisk : FileSystem :=
  [("outputs/competitor-1.md".toList, "a".toList),
   ("outputs/competitor-3.md".toList, "b".toList)]

/-- The number a decimal numeral denotes. -/
def decimalValue (digits : JSString) : Nat :=
  digits.foldl (fun value c => value * 10 + (c.toNat - 48)) 0

/-! ## The URL parser -/

theorem dropLiteral_append (lit s : JSString) : dropLiteral lit (lit ++ s) = some s := by
  induction lit with
  | nil => cases s <;> rfl
  | cons p ps ih => simp [dropLiteral, ih]

theorem dropLiteral_eq_some {lit s rest : JSString} (h : dropLiteral lit s = some rest) :
    s = lit ++ rest := by
  induction lit generalizing s with
  | nil => cases s <;> simp_all [dropLiteral]
  | cons p ps ih =>
    cases s with
    | nil => simp [dropLiteral] at h
    | cons c cs =>
      by_cases hpc : p = c
      · simp only [dropLiteral, hpc, if_true] at h
        simp [hpc, ih h]
      · simp [dropLiteral, hpc] at h

theorem literalThenId_starts {lit s : JSString} {id : JSString}
    (h : literalThenId lit s = some id) : lit <+: s := by
  unfold literalThenId at h
  split at h
  · next rest hrest => exact ⟨rest, (dropLiteral_eq_some hrest).symm⟩
  · cases h

theorem captureId_run (id tail : JSString) (hne : id ≠ [])
    (hid : ∀ c ∈ id, isIdChar c = true) (htail : ∀ c ∈ tail.head?, isIdChar c = false) :
    captureId (id ++ tail) = some id := by
  have hrun : (id ++ tail).takeWhile isIdChar = id := by
    induction id with
    | nil =>
      cases tail with
      | nil => rfl
      | cons t ts =>
        have := htail t (by simp)
        simp [List.takeWhile, this]
    | cons c cs ih =>
      have hc : isIdChar c = true := hid c (by simp)
      simp only [List.cons_append, List.takeWhile, hc]
      congr 1
      cases cs with
      | nil =>
        cases tail with
        | nil => rfl
        | cons t ts =>
          have := htail t (by simp)
          simp [List.takeWhile, this]
      | cons d ds =>
        exact ih (by simp) (fun x hx => hid x (List.mem_cons_of_mem _ hx))
  unfold captureId
  rw [hrun]
  cases id with
  | nil => exact absurd rfl hne
  | cons c cs => rfl

theorem searchFirst_of_head {p : JSString → Option JSString} {s v : JSString}
    (h : p s = some v) : searchFirst p s = some v := by
  cases s with
  | nil => simpa [searchFirst] using h
  | cons c cs => simp [searchFirst, h, Option.orElse]

theorem searchFirst_skip (p : JSString → Option JSString) (pre s : JSString)
    (h : ∀ c ∈ pre, ∀ t, p (c :: t) = none) :
    searchFirst p (pre ++ s) = searchFirst p s := by
  induction pre with
  | nil => rfl
  | cons c cs ih =>
    simp only [List.cons_append, searchFirst, h c (by simp), Option.orElse]
    exact ih fun x hx => h x (List.mem_cons_of_mem _ hx)

theorem searchFirst_eq_none {p : JSString → Option JSString} {s : JSString}
    (h : ∀ t, t <:+ s → p t = none) : searchFirst p s = none := by
  induction s with
  | nil => simpa [searchFirst] using h [] (List.suffix_refl _)
  | cons c cs ih =>
    simp only [searchFirst, h _ (List.suffix_refl _), Option.orElse]
    exact ih fun t ht => h t (ht.trans (List.suffix_cons c cs))

theorem pattern1At_cons_ne (c : Char) (cs : JSString) (h : c ≠ 'y') :
    pattern1At (c :: cs) = none := by
  have h2 : ¬ ('y' = c) := fun e => h e.symm
  simp [pattern1At, literalThenId, dropLiteral, h2, Option.orElse]

theorem pattern1At_watch (rest : JSString) (id : JSString) (h : captureId rest = some id) :
    pattern1At ("youtube.com/watch?v=".toList ++ rest) = some id := by
  simp [pattern1At, literalThenId, dropLiteral, Option.orElse, h]

theorem pattern1At_short (rest : JSString) (id : JSString) (h : captureId rest = some id) :
    pattern1At ("youtu.be/".toList ++ rest) = some id := by
  simp [pattern1At, literalThenId, dropLiteral, Option.orElse, h]

theorem pattern1At_embed (rest : JSString) (id : JSString) (h : captureId rest = some id) :
    pattern1At ("youtube.com/embed/".toList ++ rest) = some id := by
  simp [pattern1At, literalThenId, dropLiteral, Option.orElse, h]

theorem isIdChar_of_ne {c : Char}
    (h : c ≠ '&' ∧ c ≠ '?' ∧ c ≠ '#' ∧ c ≠ '\n') : isIdChar c = true := by
  simp [isIdChar, h.1, h.2.1, h.2.2.1, h.2.2.2]

theorem extractVideoId_of_pattern1 {url id : JSString}
    (h : searchFirst pattern1At url = some id) : extractVideoId url = .ok id := by
  simp [extractVideoId, h]

theorem searchFirst_https_www (p : JSString → Option JSString) (s : JSString)
    (h : ∀ c, c ≠ 'y' → ∀ t, p (c :: t) = none) :
    searchFirst p ("https://www.".toList ++ s) = searchFirst p s := by
  have hpre : ∀ c ∈ "https://www.".toList, c ≠ 'y' := by decide
  exact searchFirst_skip p _ s fun c hc t => h c (hpre c hc) t

theorem searchFirst_https (p : JSString → Option JSString) (s : JSString)
    (h : ∀ c, c ≠ 'y' → ∀ t, p (c :: t) = none) :
    searchFirst p ("https://".toList ++ s) = searchFirst p s := by
  have hpre : ∀ c ∈ "https://".toList, c ≠ 'y' := by decide
  exact searchFirst_skip p _ s fun c hc t => h c (hpre c hc) t

/-- C1: for every non-empty identifier without `&`, `?`, `#` and newline, `extractVideoId`
returns exactly the identifier for the standard watch URL, the short URL, the embed URL and
the watch URL followed by `&` and any further parameters. -/
theorem extractVideoId_supported_shapes (id rest : JSString) (hne : id ≠ [])
    (hid : ∀ c ∈ id, c ≠ '&' ∧ c ≠ '?' ∧ c ≠ '#' ∧ c ≠ '\n') :
    extractVideoId ("https://www.youtube.com/watch?v=".toList ++ id) = .ok id ∧
    extractVideoId ("https://youtu.be/".toList ++ id) = .ok id ∧
    extractVideoId ("https://www.youtube.com/embed/".toList ++ id) = .ok id ∧
    extractVideoId ("https://www.youtube.com/watch?v=".toList ++ id ++ '&' :: rest) = .ok id := by
  have hid2 : ∀ c ∈ id, isIdChar c = true := fun c hc => isIdChar_of_ne (hid c hc)
  have hcap : captureId id = some id := by
    simpa using captureId_run id [] hne hid2 (by simp)
  have hcap2 : captureId (id ++ '&' :: rest) = some id :=
    captureId_run id ('&' :: rest) hne hid2 (by simp [isIdChar])
  have hskip := fun c (hc : c ≠ 'y') t => pattern1At_cons_ne c t hc
  refine ⟨?_, ?_, ?_, ?_⟩
  · apply extractVideoId_of_pattern1
    have : "https://www.youtube.com/watch?v=".toList ++ id =
        "https://www.".toList ++ ("youtube.com/watch?v=".toList ++ id) := by simp
    rw [this, searchFirst_https_www _ _ hskip]
    exact searchFirst_of_head (pattern1At_watch id id hcap)
  · apply extractVideoId_of_pattern1
    have : "https://youtu.be/".toList ++ id =
        "https://".toList ++ ("youtu.be/".toList ++ id) := by simp
    rw [this, searchFirst_https _ _ hskip]
    exact searchFirst_of_head (pattern1At_short id id hcap)
  · apply extractVideoId_of_pattern1
    have : "https://www.youtube.com/embed/".toList ++ id =
        "https://www.".toList ++ ("youtube.com/embed/".toList ++ id) := by simp
    rw [this, searchFirst_https_www _ _ hskip]
    exact searchFirst_of_head (pattern1At_embed id id hcap)
  · apply extractVideoId_of_pattern1
    have : "https://www.youtube.com/watch?v=".toList ++ id ++ '&' :: rest =
        "https://www.".toList ++ ("youtube.com/watch?v=".toList ++ (id ++ '&' :: rest)) := by
      simp
    rw [this, searchFirst_https_www _ _ hskip]
    exact searchFirst_of_head (pattern1At_watch _ id hcap2)

/-- C1, at the identifier `dQw4w9WgXcQ` with the trailing parameters `t=42s`. -/
theorem extractVideoId_supported_shapes_witness :
    extractVideoId "https://www.youtube.com/watch?v=dQw4w9WgXcQ".toList = .ok "dQw4w9WgXcQ".toList ∧
    extractVideoId "https://youtu.be/dQw4w9WgXcQ".toList = .ok "dQw4w9WgXcQ".toList ∧
    extractVideoId "https://www.youtube.com/embed/dQw4w9WgXcQ".toList = .ok "dQw4w9WgXcQ".toList ∧
    extractVideoId "https://www.youtube.com/watch?v=dQw4w9WgXcQ&t=42s".toList =
      .ok "dQw4w9WgXcQ".toList :=
  extractVideoId_supported_shapes "dQw4w9WgXcQ".toList "t=42s".toList (by decide) (by decide)

theorem pattern1At_eq_some {t id : JSString} (h : pattern1At t = some id) :
    "youtube.com/watch?".toList <+: t ∨ "youtu.be/".toList <+: t ∨
      "youtube.com/embed/".toList <+: t := by
  unfold pattern1At at h
  cases h1 : literalThenId "youtube.com/watch?v=".toList t with
  | some v =>
    left
    obtain ⟨r, hr⟩ := literalThenId_starts h1
    exact ⟨'v' :: '=' :: r, by rw [← hr]; simp⟩
  | none =>
    cases h2 : literalThenId "youtu.be/".toList t with
    | some v => exact Or.inr (Or.inl (literalThenId_starts h2))
    | none =>
      rw [h1, h2] at h
      simp only [Option.orElse] at h
      exact Or.inr (Or.inr (literalThenId_starts h))

theorem pattern2At_eq_some {t id : JSString} (h : pattern2At t = some id) :
    "youtube.com/watch?".toList <+: t := by
  unfold pattern2At at h
  split at h
  · next rest hrest => exact ⟨rest, (dropLiteral_eq_some hrest).symm⟩
  · cases h

theorem occurs_of_starts {lit t url : JSString} (h : lit <+: t) (ht : t <:+ url) :
    lit <:+: url :=
  h.isInfix.trans ht.isInfix

/-- C3, as the claim states it, fails: the host `example.com` is not a host of YouTube, and
for the URL `https://example.com/?u=youtu.be/abc` the identifier `abc` is returned. -/
theorem extractVideoId_foreign_host_returns_id :
    isYouTubeHost "example.com".toList = false ∧
    extractVideoId ("https".toList ++ "://".toList ++ "example.com".toList ++ "/".toList ++
      "?u=youtu.be/abc".toList) = .ok "abc".toList := by
  constructor <;> rfl

/-- C3, amended: `extractVideoId` fails with `Invalid YouTube URL` for every URL in which
none of the texts `youtube.com/watch?`, `youtu.be/` and `youtube.com/embed/` occurs, in host,
path or query. -/
theorem extractVideoId_invalid_without_marker (url : JSString)
    (hwatch : ¬ "youtube.com/watch?".toList <:+: url)
    (hshort : ¬ "youtu.be/".toList <:+: url)
    (hembed : ¬ "youtube.com/embed/".toList <:+: url) :
    extractVideoId url = .error invalidUrlMessage := by
  have h1 : searchFirst pattern1At url = none := by
    apply searchFirst_eq_none
    intro t ht
    cases hp : pattern1At t with
    | none => rfl
    | some id =>
      rcases pattern1At_eq_some hp with h | h | h
      · exact absurd (occurs_of_starts h ht) hwatch
      · exact absurd (occurs_of_starts h ht) hshort
      · exact absurd (occurs_of_starts h ht) hembed
  have h2 : searchFirst pattern2At url = none := by
    apply searchFirst_eq_none
    intro t ht
    cases hp : pattern2At t with
    | none => rfl
    | some id => exact absurd (occurs_of_starts (pattern2At_eq_some hp) ht) hwatch
  simp [extractVideoId, h1, h2]

/-- C3, amended, at the URL `https://vimeo.com/watch?v=abc`. -/
theorem extractVideoId_invalid_without_marker_witness :
    extractVideoId "https://vimeo.com/watch?v=abc".toList = .error invalidUrlMessage :=
  extractVideoId_invalid_without_marker "https://vimeo.com/watch?v=abc".toList
    (by decide) (by decide) (by decide)

/-- C10, the failing input: in `https://www.youtube.com/watch?list=PL1&v=abc123&rv=xyz` the
only parameter called `v` has the value `abc123`, and `extractVideoId` returns `xyz`, the
value of the parameter `rv`. -/
theorem extractVideoId_takes_last_v_text :
    queryValues "v".toList "list=PL1&v=abc123&rv=xyz".toList = ["abc123".toList] ∧
    extractVideoId ("https://www.youtube.com/watch?".toList ++
      "list=PL1&v=abc123&rv=xyz".toList) = .ok "xyz".toList := by
  constructor <;> rfl

/-! ## The output namer -/

theorem digitChar_value (k : Nat) (h : k < 10) : (Nat.digitChar k).toNat - 48 = k := by
  interval_cases k <;> rfl

theorem toDigitsCore_value (fuel : Nat) : ∀ (n : Nat) (ds : JSString), n < fuel →
    (Nat.toDigitsCore 10 fuel n ds).foldl (fun value c => value * 10 + (c.toNat - 48)) 0 =
      ds.foldl (fun value c => value * 10 + (c.toNat - 48)) n := by
  induction fuel with
  | zero => intro n ds h; omega
  | succ fuel ih =>
    intro n ds h
    have hd := digitChar_value (n % 10) (Nat.mod_lt _ (by decide))
    simp only [Nat.toDigitsCore]
    split
    · next hz =>
      have hn : n % 10 = n := by omega
      rw [List.foldl_cons, Nat.zero_mul, Nat.zero_add, hd, hn]
    · next hz =>
      rw [ih (n / 10) _ (by omega)]
      simp only [List.foldl_cons, hd]
      congr 1
      omega

theorem decimalValue_numberToString (n : Nat) : decimalValue (numberToString n) = n := by
  unfold decimalValue numberToString Nat.toDigits
  rw [toDigitsCore_value (n + 1) n [] (by omega)]
  rfl

theorem competitorPath_injective (outputDir : JSString) {a b : Nat}
    (h : pathJoin outputDir (competitorName a) = pathJoin outputDir (competitorName b)) :
    a = b := by
  simp only [pathJoin, competitorName, List.append_cancel_left_eq, List.cons.injEq, true_and,
    List.append_cancel_right_eq] at h
  have := congrArg decimalValue h
  simpa [decimalValue_numberToString] using this

theorem existsSync_iff (disk : FileSystem) (path : JSString) :
    existsSync disk path = true ↔ path ∈ disk.map Prod.fst := by
  simp [existsSync]

theorem exists_free_counter (disk : FileSystem) (outputDir : JSString) :
    ∃ free, 1 ≤ free ∧ free ≤ disk.length + 1 ∧
      existsSync disk (pathJoin outputDir (competitorName free)) = false := by
  by_contra hall
  have hall2 : ∀ k ∈ Finset.Icc 1 (disk.length + 1),
      pathJoin outputDir (competitorName k) ∈ (disk.map Prod.fst).toFinset := by
    intro k hk
    rw [Finset.mem_Icc] at hk
    rw [List.mem_toFinset, ← existsSync_iff]
    by_contra hk2
    exact hall ⟨k, hk.1, hk.2, by simpa using hk2⟩
  have hcard := Finset.card_le_card_of_injOn
    (fun k => pathJoin outputDir (competitorName k)) hall2
    (fun a _ b _ hab => competitorPath_injective outputDir hab)
  have hlen : (disk.map Prod.fst).toFinset.card ≤ disk.length := by
    simpa using List.toFinset_card_le (disk.map Prod.fst)
  rw [Nat.card_Icc] at hcard
  omega

theorem getNextFileNameLoop_spec (disk : FileSystem) (outputDir : JSString) (fuel : Nat) :
    ∀ counter free, counter ≤ free → free < counter + fuel →
      existsSync disk (pathJoin outputDir (competitorName free)) = false →
      ∃ n, getNextFileNameLoop disk outputDir fuel counter = some n ∧ counter ≤ n ∧ n ≤ free ∧
        existsSync disk (pathJoin outputDir (competitorName n)) = false ∧
        ∀ k, counter ≤ k → k < n →
          existsSync disk (pathJoin outputDir (competitorName k)) = true := by
  induction fuel with
  | zero => intro counter free h1 h2; omega
  | succ fuel ih =>
    intro counter free h1 h2 hfree
    by_cases hc : existsSync disk (pathJoin outputDir (competitorName counter)) = true
    · have hne : counter ≠ free := by
        intro e
        rw [e, hfree] at hc
        cases hc
      obtain ⟨n, hn, hle, hnf, hun, hbelow⟩ := ih (counter + 1) free (by omega) (by omega) hfree
      refine ⟨n, by simp [getNextFileNameLoop, hc, hn], by omega, hnf, hun, ?_⟩
      intro k hk1 hk2
      by_cases hk : k = counter
      · rw [hk]; exact hc
      · exact hbelow k (by omega) hk2
    · refine ⟨counter, by simp [getNextFileNameLoop, hc], le_refl _, h1, by simpa using hc, ?_⟩
      intro k hk1 hk2
      omega

theorem getNextFileName_free (disk : FileSystem) (outputDir : JSString) (fuel : Nat)
    (hfuel : disk.length < fuel) :
    ∃ n, 1 ≤ n ∧ n ≤ disk.length + 1 ∧
      getNextFileName disk outputDir fuel = some (pathJoin outputDir (competitorName n)) ∧
      existsSync disk (pathJoin outputDir (competitorName n)) = false ∧
      ∀ k, 1 ≤ k → k < n →
        existsSync disk (pathJoin outputDir (competitorName k)) = true := by
  obtain ⟨free, hf1, hf2, hf3⟩ := exists_free_counter disk outputDir
  obtain ⟨n, hn, hle, hnf, hun, hbelow⟩ :=
    getNextFileNameLoop_spec disk outputDir fuel 1 free hf1 (by omega) hf3
  exact ⟨n, hle, by omega, by simp [getNextFileName, hn], hun, hbelow⟩

theorem writeFileSync_ok {writeError : FileSystem → JSString → JSString → Option JSString}
    {disk written : FileSystem} {path data : JSString}
    (h : writeFileSync writeError disk path data = .ok written) :
    written = (path, data) :: disk.filter fun file => !(file.1 == path) := by
  unfold writeFileSync at h
  split at h
  · cases h
  · injection h with h
    exact h.symm

theorem writeFileSync_keeps {writeError : FileSystem → JSString → JSString → Option JSString}
    {disk written : FileSystem} {path data : JSString}
    (h : writeFileSync writeError disk path data = .ok written)
    (hfree : existsSync disk path = false) :
    (path, data) ∈ written ∧ ∀ file ∈ disk, file ∈ written := by
  rw [writeFileSync_ok h]
  refine ⟨by simp, fun file hfile => ?_⟩
  have hne : ¬ (file.1 = path) := by
    intro e
    have : existsSync disk path = true := by
      rw [existsSync_iff, ← e]
      exact List.mem_map_of_mem _ hfile
    rw [hfree] at this
    cases this
  simp [hfile, hne]

/-- C4: when the loop is given more tests than the disk has files, `getNextFileName` returns
`competitor-n.md` in the output directory for a positive `n`: that file does not exist, so a
write of it that succeeds creates it and keeps every file of the disk, every `competitor-k.md`
with `1 ≤ k < n` exists, and `n` is at most the number of files plus one.  With the files
`competitor-1.md` and `competitor-2.md` on the disk the result is `competitor-3.md`. -/
theorem getNextFileName_lowest_unused (disk : FileSystem) (outputDir : JSString) (fuel : Nat)
    (hfuel : disk.length < fuel) :
    (∃ n, 1 ≤ n ∧ n ≤ disk.length + 1 ∧
      getNextFileName disk outputDir fuel = some (pathJoin outputDir (competitorName n)) ∧
      existsSync disk (pathJoin outputDir (competitorName n)) = false ∧
      (∀ k, 1 ≤ k → k < n →
        existsSync disk (pathJoin outputDir (competitorName k)) = true) ∧
      (∀ writeError data written,
        writeFileSync writeError disk (pathJoin outputDir (competitorName n)) data =
          .ok written →
        (pathJoin outputDir (competitorName n), data) ∈ written ∧
          ∀ file ∈ disk, file ∈ written)) ∧
    (∀ first second : JSString,
      getNextFileName
        [(pathJoin outputDir "competitor-1.md".toList, first),
         (pathJoin outputDir "competitor-2.md".toList, second)] outputDir 3 =
      some (pathJoin outputDir "competitor-3.md".toList)) := by
  constructor
  · obtain ⟨n, hpos, hle, hname, hun, hbelow⟩ := getNextFileName_free disk outputDir fuel hfuel
    exact ⟨n, hpos, hle, hname, hun, hbelow,
      fun _ _ _ hwrite => writeFileSync_keeps hwrite hun⟩
  · intro first second
    simp [getNextFileName, getNextFileNameLoop, existsSync, pathJoin, competitorName,
      numberToString, Nat.toDigits, Nat.toDigitsCore, Nat.digitChar]

/-- C4, on the disk that holds `outputs/competitor-1.md` and `outputs/competitor-3.md`, with
three tests of the loop condition allowed: the result is `outputs/competitor-2.md`. -/
theorem getNextFileName_lowest_unused_witness :
    (∃ n, 1 ≤ n ∧ n ≤ sampleDisk.length + 1 ∧
      getNextFileName sampleDisk "outputs".toList 3 =
        some (pathJoin "outputs".toList (competitorName n)) ∧
      existsSync sampleDisk (pathJoin "outputs".toList (competitorName n)) = false ∧
      (∀ k, 1 ≤ k → k < n →
        existsSync sampleDisk (pathJoin "outputs".toList (competitorName k)) = true) ∧
      (∀ writeError data written,
        writeFileSync writeError sampleDisk (pathJoin "outputs".toList (competitorName n))
          data = .ok written →
        (pathJoin "outputs".toList (competitorName n), data) ∈ written ∧
          ∀ file ∈ sampleDisk, file ∈ written)) ∧
    getNextFileName sampleDisk "outputs".toList 3 = some "outputs/competitor-2.md".toList :=
  ⟨(getNextFileName_lowest_unused sampleDisk "outputs".toList 3 (by decide)).1, by rfl⟩

/-! ## The keyword extractor -/

theorem mem_dedupKeepFirst (l : List JSString) (x : JSString) :
    x ∈ dedupKeepFirst l ↔ x ∈ l := by
  induction l with
  | nil => simp [dedupKeepFirst]
  | cons a l ih =>
    simp only [dedupKeepFirst, List.mem_cons, List.mem_filter, ih]
    by_cases h : x = a <;> simp [h]

theorem nodup_dedupKeepFirst (l : List JSString) : (dedupKeepFirst l).Nodup := by
  induction l with
  | nil => simp [dedupKeepFirst]
  | cons a l ih =>
    simp only [dedupKeepFirst, List.nodup_cons]
    exact ⟨by simp [List.mem_filter], ih.filter _⟩

theorem foldl_insert_eq (l acc : List JSString) :
    l.foldl (fun set k => if k ∈ set then set else set ++ [k]) acc =
      acc ++ (dedupKeepFirst l).filter fun y => decide (y ∉ acc) := by
  induction l generalizing acc with
  | nil => simp [dedupKeepFirst]
  | cons x xs ih =>
    rw [List.foldl_cons]
    by_cases hx : x ∈ acc
    · rw [if_pos hx, ih acc]
      congr 1
      simp only [dedupKeepFirst, List.filter_cons, hx, not_true_eq_false, decide_False,
        Bool.false_eq_true, if_false, List.filter_filter]
      apply List.filter_congr
      intro y _
      by_cases hy : y ∈ acc
      · simp [hy]
      · have : ¬ (y = x) := fun e => hy (e ▸ hx)
        simp [hy, this]
    · rw [if_neg hx, ih (acc ++ [x])]
      simp only [dedupKeepFirst, List.filter_cons, hx, not_false_eq_true, decide_True,
        if_true, List.filter_filter, List.append_assoc, List.singleton_append]
      congr 2
      apply List.filter_congr
      intro y _
      by_cases hy : y ∈ acc <;> by_cases hyx : y = x <;> simp [hy, hyx]

theorem setInsertionOrder_eq (l : List JSString) : setInsertionOrder l = dedupKeepFirst l := by
  unfold setInsertionOrder
  rw [foldl_insert_eq]
  simp

theorem dedupKeepFirst_append (a b : List JSString) :
    dedupKeepFirst (a ++ b) =
      dedupKeepFirst a ++ (dedupKeepFirst b).filter fun y => decide (y ∉ dedupKeepFirst a) := by
  rw [← setInsertionOrder_eq (a ++ b)]
  unfold setInsertionOrder
  rw [List.foldl_append, foldl_insert_eq a [], foldl_insert_eq b]
  simp

theorem dedupKeepFirst_of_nodup (l : List JSString) (h : l.Nodup) : dedupKeepFirst l = l := by
  induction l with
  | nil => rfl
  | cons a l ih =>
    rw [List.nodup_cons] at h
    simp only [dedupKeepFirst, ih h.2]
    congr 1
    rw [List.filter_eq_self]
    intro y hy
    have : ¬ (y = a) := fun e => h.1 (e ▸ hy)
    simp [this]

theorem length_dedupKeepFirst (l : List JSString) :
    (dedupKeepFirst l).length = l.toFinset.card := by
  rw [← List.toFinset_card_of_nodup (nodup_dedupKeepFirst l)]
  congr 1
  ext x
  simp [mem_dedupKeepFirst]

theorem take_length_takeWhile (p : Char → Bool) (l : JSString) :
    l.take (l.takeWhile p).length = l.takeWhile p := by
  induction l with
  | nil => rfl
  | cons c cs ih =>
    by_cases h : p c <;> simp [List.takeWhile, h, ih]

theorem isWordChar_hash : isWordChar '#' = false := by decide

theorem matchHashtags_bodies (s : JSString) : ∀ skip : Nat,
    (∀ c ∈ s.take skip, isWordChar c = true) →
    (matchHashtags skip s).map (fun tag => tag.drop 1) = hashtagBodies s := by
  induction s with
  | nil => intro skip _; cases skip <;> rfl
  | cons c cs ih =>
    intro skip hskip
    cases skip with
    | zero =>
      by_cases hc : c = '#'
      · simp only [matchHashtags, hashtagBodies, hc, if_true]
        cases hrun : cs.takeWhile isWordChar with
        | nil => exact ih 0 (by simp)
        | cons b bs =>
          simp only [List.map_cons, List.drop_succ_cons, List.drop_zero]
          congr 1
          apply ih
          intro x hx
          rw [← hrun, take_length_takeWhile] at hx
          exact List.mem_takeWhile_imp hx
      · simp only [matchHashtags, hashtagBodies, hc, if_false]
        exact ih 0 (by simp)
    | succ skip =>
      have hc : isWordChar c = true := hskip c (by simp)
      have hne : c ≠ '#' := by
        intro e
        rw [e, isWordChar_hash] at hc
        cases hc
      simp only [matchHashtags, hashtagBodies, hne, if_false]
      exact ih skip fun x hx => hskip x (by simp [hx])

theorem keywordCandidates_eq (description : JSString) :
    keywordCandidates description =
      hashtagBodies description ++
        ((splitOnChar '\n' description).map lineKeywords).flatten := by
  unfold keywordCandidates
  rw [matchHashtags_bodies description 0 (by simp)]

/-- C5: for every description, `extractKeywordsFromDescription` returns at most ten entries
without duplicates: the first ten elements of the candidate list (the hashtag bodies, then the
tokens of the marker lines) deduplicated with each value kept at its first occurrence.  The
result is a function of the description alone, and deduplicating and truncating it once more
leaves it unchanged. -/
theorem extractKeywords_dedup_first_ten (description : JSString) :
    (extractKeywordsFromDescription description).length ≤ 10 ∧
    (extractKeywordsFromDescription description).Nodup ∧
    extractKeywordsFromDescription description =
      (dedupKeepFirst (hashtagBodies description ++
        ((splitOnChar '\n' description).map lineKeywords).flatten)).take 10 ∧
    (setInsertionOrder (extractKeywordsFromDescription description)).take 10 =
      extractKeywordsFromDescription description := by
  have hlen : (extractKeywordsFromDescription description).length ≤ 10 := by
    simp [extractKeywordsFromDescription, List.length_take]
  have hnodup : (extractKeywordsFromDescription description).Nodup := by
    unfold extractKeywordsFromDescription
    rw [setInsertionOrder_eq]
    exact (nodup_dedupKeepFirst _).sublist (List.take_sublist _ _)
  refine ⟨hlen, hnodup, ?_, ?_⟩
  · unfold extractKeywordsFromDescription
    rw [setInsertionOrder_eq, keywordCandidates_eq]
  · rw [setInsertionOrder_eq, dedupKeepFirst_of_nodup _ hnodup]
    exact List.take_of_length_le hlen

/-- C6: for every description with at most ten distinct hashtag bodies, the keywords start
with the hashtag bodies in order of first occurrence, so every hashtag body is a keyword. -/
theorem hashtag_bodies_lead_keywords (description : JSString)
    (hten : (hashtagBodies description).toFinset.card ≤ 10) :
    dedupKeepFirst (hashtagBodies description) <+: extractKeywordsFromDescription description ∧
    ∀ body ∈ hashtagBodies description, body ∈ extractKeywordsFromDescription description := by
  have hlead : dedupKeepFirst (hashtagBodies description) <+:
      extractKeywordsFromDescription description := by
    unfold extractKeywordsFromDescription
    rw [setInsertionOrder_eq, keywordCandidates_eq, dedupKeepFirst_append,
      List.take_append_eq_append_take,
      List.take_of_length_le (by rw [length_dedupKeepFirst]; exact hten)]
    exact List.prefix_append _ _
  refine ⟨hlead, fun body hbody => ?_⟩
  exact hlead.subset ((mem_dedupKeepFirst _ _).2 hbody)

/-- C6, at the description `Check this out #coding #js`: the keywords contain `coding` and
`js`. -/
theorem hashtag_bodies_lead_keywords_witness :
    hashtagBodies "Check this out #coding #js".toList = ["coding".toList, "js".toList] ∧
    "coding".toList ∈ extractKeywordsFromDescription "Check this out #coding #js".toList ∧
    "js".toList ∈ extractKeywordsFromDescription "Check this out #coding #js".toList :=
  have h := hashtag_bodies_lead_keywords "Check this out #coding #js".toList (by decide)
  ⟨by rfl, h.2 "coding".toList (by decide), h.2 "js".toList (by decide)⟩

/-! ## The transcript client -/

/-- C7: when the request for English captions yields no entry (it is rejected, or resolves to
nothing or to the empty array) and the request without a language resolves to a non-empty
list, `fetchTranscript` returns the texts of that list joined by single spaces, in order; when
neither request yields an entry, it fails with `Transcript not available: ` followed by the
message of the error of the first attempt. -/
theorem fetchTranscript_fallback (getSubtitles : JSString → Option JSString → SubtitlesOutcome)
    (videoId : JSString)
    (hfirst : yieldsNoSegment (getSubtitles videoId (some "en".toList)) = true) :
    (∀ segments, segments ≠ [] → getSubtitles videoId none = .ok (some segments) →
      fetchTranscript getSubtitles videoId =
        .ok (join " ".toList (segments.map fun item => item.text))) ∧
    (yieldsNoSegment (getSubtitles videoId none) = true →
      fetchTranscript getSubtitles videoId =
        .error ("Transcript not available: ".toList ++
          firstAttemptMessage (getSubtitles videoId (some "en".toList)))) := by
  have hattempt : fetchTranscriptFirstAttempt (getSubtitles videoId (some "en".toList)) =
      .error (firstAttemptMessage (getSubtitles videoId (some "en".toList))) := by
    generalize getSubtitles videoId (some "en".toList) = english at hfirst
    match english, hfirst with
    | .error message, _ => rfl
    | .ok none, _ => rfl
    | .ok (some []), _ => rfl
  constructor
  · intro segments hne hsecond
    unfold fetchTranscript
    rw [hattempt, hsecond]
    cases segments with
    | nil => exact absurd rfl hne
    | cons s ss => rfl
  · intro hsecond
    unfold fetchTranscript
    rw [hattempt]
    generalize getSubtitles videoId none = other at hsecond
    match other, hsecond with
    | .error message, _ => rfl
    | .ok none, _ => rfl
    | .ok (some []), _ => rfl

/-- C7, at a collaborator whose English request is rejected and whose request without a
language resolves to the entries `hello` and `world`, and at one that has no entry at
all. -/
theorem fetchTranscript_fallback_witness :
    fetchTranscript sampleSubtitles "abc".toList = .ok "hello world".toList ∧
    fetchTranscript emptySubtitles "abc".toList =
      .error "Transcript not available: No transcript content found".toList :=
  ⟨(fetchTranscript_fallback sampleSubtitles "abc".toList (by rfl)).1 sampleSegments
      (by simp [sampleSegments]) (by rfl),
   (fetchTranscript_fallback emptySubtitles "abc".toList (by rfl)).2 (by rfl)⟩

/-! ## The orchestrator -/

/-- C8, as the claim states it, fails: the identifier is extracted, `fetchVideoInfo`,
`fetchComments` and `fetchTranscript` succeed, and the directory `outputs` does not exist;
`fs.writeFileSync` throws and `analyze` fails with that error. -/
theorem analyze_fails_when_write_fails :
    extractVideoId "https://youtu.be/abc".toList = .ok "abc".toList ∧
    missingDirectoryCollaborators.fetchVideoInfo "abc".toList = .ok sampleVideo ∧
    missingDirectoryCollaborators.fetchComments "abc".toList 20 = .ok [] ∧
    fetchTranscript missingDirectoryCollaborators.getSubtitles "abc".toList =
      .ok "hello world".toList ∧
    analyze missingDirectoryCollaborators [] 1 "https://youtu.be/abc".toList 20 =
      some ([], .error (missingDirectoryMessage "outputs/competitor-1.md".toList)) := by
  refine ⟨by rfl, by rfl, by rfl, by rfl, by rfl⟩

/-- C8, amended: with more loop tests allowed than the disk has files, whenever
`extractVideoId` returns an identifier and `fetchVideoInfo` succeeds for it, `analyze` reaches
the write of the report of `generateMarkdown` to a file that does not exist, with the comments
of `fetchComments`, or the empty list when that fails, and the transcript of
`fetchTranscript`, or the empty string when that fails.  When the host accepts the write,
`analyze` succeeds: the disk it leaves holds the report under that name next to every file it
held, and the result carries the name, the video, the comments and the transcript.  When the
host rejects the write, `analyze` fails with the error of the write.  Whenever
`extractVideoId` or `fetchVideoInfo` fails, `analyze` fails with the same error and leaves the
disk as it was. -/
theorem analyze_degrades_gracefully (w : Collaborators) (disk : FileSystem) (fuel : Nat)
    (url : JSString) (maxComments : Nat) (hfuel : disk.length < fuel) :
    (∀ videoId videoInfo, extractVideoId url = .ok videoId →
      w.fetchVideoInfo videoId = .ok videoInfo →
      ∃ fileName comments transcript,
        getNextFileName disk w.outputDir fuel = some fileName ∧
        existsSync disk fileName = false ∧
        (∀ error, w.fetchComments videoId maxComments = .error error → comments = []) ∧
        (∀ items, w.fetchComments videoId maxComments = .ok items → comments = items) ∧
        (∀ error, fetchTranscript w.getSubtitles videoId = .error error → transcript = []) ∧
        (∀ text, fetchTranscript w.getSubtitles videoId = .ok text → transcript = text) ∧
        (w.writeError disk fileName
            (generateMarkdown w.toLocaleDateString videoInfo url comments transcript) = none →
          ∃ written,
            analyze w disk fuel url maxComments =
              some (written, .ok ⟨fileName, videoInfo, comments, transcript⟩) ∧
            (fileName, generateMarkdown w.toLocaleDateString videoInfo url comments transcript)
              ∈ written ∧
            ∀ file ∈ disk, file ∈ written) ∧
        (∀ error, w.writeError disk fileName
            (generateMarkdown w.toLocaleDateString videoInfo url comments transcript) =
              some error →
          analyze w disk fuel url maxComments = some (disk, .error error))) ∧
    (∀ error, extractVideoId url = .error error →
      analyze w disk fuel url maxComments = some (disk, .error error)) ∧
    (∀ videoId error, extractVideoId url = .ok videoId →
      w.fetchVideoInfo videoId = .error error →
      analyze w disk fuel url maxComments = some (disk, .error error)) := by
  refine ⟨?_, ?_, ?_⟩
  · intro videoId videoInfo hid hinfo
    obtain ⟨n, _, _, hname, hfree, _⟩ := getNextFileName_free disk w.outputDir fuel hfuel
    refine ⟨pathJoin w.outputDir (competitorName n), commentsOrEmpty w videoId maxComments,
      transcriptOrEmpty w videoId, hname, hfree, ?_, ?_, ?_, ?_, ?_, ?_⟩
    · intro error h; simp [commentsOrEmpty, h]
    · intro items h; simp [commentsOrEmpty, h]
    · intro error h; simp [transcriptOrEmpty, h]
    · intro text h; simp [transcriptOrEmpty, h]
    · intro haccept
      have hwrite : writeFileSync w.writeError disk (pathJoin w.outputDir (competitorName n))
          (generateMarkdown w.toLocaleDateString videoInfo url
            (commentsOrEmpty w videoId maxComments) (transcriptOrEmpty w videoId)) =
          .ok ((pathJoin w.outputDir (competitorName n),
              generateMarkdown w.toLocaleDateString videoInfo url
                (commentsOrEmpty w videoId maxComments) (transcriptOrEmpty w videoId)) ::
            disk.filter fun file => !(file.1 == pathJoin w.outputDir (competitorName n))) := by
        simp only [writeFileSync, haccept]
      refine ⟨_, ?_, (writeFileSync_keeps hwrite hfree).1, (writeFileSync_keeps hwrite hfree).2⟩
      simp only [analyze, hid, hinfo, hname, hwrite]
    · intro error hreject
      simp only [analyze, hid, hinfo, hname, writeFileSync, hreject]
  · intro error hid
    simp [analyze, hid]
  · intro videoId error hid hinfo
    simp [analyze, hid, hinfo]

/-- C8, amended, on the empty disk with one loop test allowed: the video is found, the
comments request fails, there are no captions and the host accepts the write; the report is
written with no comment and no transcript. -/
theorem analyze_degrades_gracefully_witness :
    ∃ fileName written,
      analyze sampleCollaborators [] 1 "https://youtu.be/abc".toList 20 =
        some (written, .ok ⟨fileName, sampleVideo, [], []⟩) ∧
      (fileName, generateMarkdown (fun date => date) sampleVideo "https://youtu.be/abc".toList
        [] []) ∈ written := by
  obtain ⟨fileName, comments, transcript, _, _, h3, _, h5, _, h7, _⟩ :=
    (analyze_degrades_gracefully sampleCollaborators [] 1 "https://youtu.be/abc".toList 20
      (by decide)).1 "abc".toList sampleVideo (by rfl) (by rfl)
  have hc : comments = [] := h3 _ (by rfl)
  have ht : transcript = [] := h5 _ (by rfl)
  subst hc ht
  obtain ⟨written, hrun, hmem, _⟩ := h7 (by rfl)
  exact ⟨fileName, written, hrun, hmem⟩

/-! ## The report builder -/

set_option maxRecDepth 100000

/-- C2, the failing input: the report does not depend on the transcript; for the sample video
the report built with the transcript `hello world` does not contain `hello world`, and the
report built with the empty transcript does not contain
`[Transcript not available via automated API]`. -/
theorem generateMarkdown_omits_transcript :
    (∀ (toLocaleDateString : JSString → JSString) (videoInfo : VideoInfo)
      (originalUrl : JSString) (comments : List CommentThread) (first second : JSString),
      generateMarkdown toLocaleDateString videoInfo originalUrl comments first =
        generateMarkdown toLocaleDateString videoInfo originalUrl comments second) ∧
    includes (generateMarkdown (fun date => date) sampleVideo "https://youtu.be/abc".toList []
      "hello world".toList) "hello world".toList = false ∧
    includes (generateMarkdown (fun date => date) sampleVideo "https://youtu.be/abc".toList []
      []) "[Transcript not available via automated API]".toList = false := by
  refine ⟨fun _ _ _ _ _ _ => rfl, by rfl, by rfl⟩

/-- C9, the failing input: for the sample video, which has no like count, no date and no
channel, the likes line prints `N/A`, the published line prints `Invalid Date` and the channel
line prints `undefined`; the report contains neither `- Published: N/A` nor `- Channel: N/A`.
The same two texts are printed for every video without date and channel. -/
theorem generateMarkdown_missing_date_and_channel :
    sampleVideo.snippet.publishedAt = none ∧ sampleVideo.snippet.channelTitle = none ∧
    statisticsLines (fun date => date) sampleVideo =
      ("- Views: 10\n- Likes: N/A\n- Comments: 3\n" ++
        "- Published: Invalid Date\n- Channel: undefined").toList ∧
    includes (generateMarkdown (fun date => date) sampleVideo "https://youtu.be/abc".toList []
      []) "- Published: N/A".toList = false ∧
    includes (generateMarkdown (fun date => date) sampleVideo "https://youtu.be/abc".toList []
      []) "- Channel: N/A".toList = false ∧
    (∀ (toLocaleDateString : JSString → JSString) (videoInfo : VideoInfo),
      videoInfo.snippet.publishedAt = none → videoInfo.snippet.channelTitle = none →
      statisticsLines toLocaleDateString videoInfo =
        "- Views: ".toList ++ orNA videoInfo.statistics.viewCount ++
        "\n- Likes: ".toList ++ orNA videoInfo.statistics.likeCount ++
        "\n- Comments: ".toList ++ orNA videoInfo.statistics.commentCount ++
        "\n- Published: ".toList ++ "Invalid Date".toList ++
        "\n- Channel: ".toList ++ "undefined".toList) := by
  refine ⟨rfl, rfl, by rfl, by rfl, by rfl, ?_⟩
  intro toLocaleDateString videoInfo hdate hchannel
  simp only [statisticsLines, hdate, hchannel, publishedDate, interpolate]

end YouTubeAnalyzer
